import Mathlib

/-!
Verification of the stopwatch state engine of MabelAssistantBE.

The embedding follows `src/stopwatch/stopwatch.service.ts`,
`src/stopwatch/entities/stopwatch.entity.ts` and the DTO files.
Timestamps are integer milliseconds (as returned by `Date.getTime()` in the
source); the store is a list of entity records, and each service operation is
a function from the store (plus the clock instants the operation reads) to the
new store and an `Except` result mirroring the thrown exceptions.
-/

namespace MabelAssistant

/-- Stopwatch entity (`src/stopwatch/entities/stopwatch.entity.ts`): columns
`name`, `isRunning` (default false), `elapsed` (default 0), `startTime`
(nullable timestamp). The `id` and `deletedAt` columns are inherited from
`GeneralEntity` (`src/common/entities/general.entity.ts`, not included in the
sources). Modelled from the spec: `id` is unique, store-assigned, immutable;
`deletedAt` marks logical deletion and deleted records are excluded from all
reads. -/
structure Stopwatch where
  id : Int
  name : String
  isRunning : Bool
  elapsed : Int
  startTime : Option Int
  deletedAt : Option Int
deriving DecidableEq, Repr

/-- Read view (`src/stopwatch/dtos/stopwatch.dto.ts`, shape as produced by
`StopwatchService.toDto`). -/
structure StopwatchDto where
  id : Int
  name : String
  elapsed : Int
  isRunning : Bool
deriving DecidableEq, Repr

/-- Patch body (`src/stopwatch/dtos/update-stopwatch.dto.ts`): optional `name`,
optional `elapsed`; an absent field is `none`. -/
structure UpdateStopwatchDto where
  name : Option String := none
  elapsed : Option Int := none
deriving DecidableEq, Repr

/-- The two exception kinds thrown by the service: `NotFoundException` and
`BadRequestException` (the spec's NotFound and InvalidState). -/
inductive ServiceError where
  | notFoundException
  | badRequestException
deriving DecidableEq, Repr

/-- `StopwatchService.calculateElapsed` (service lines 171-180).
When not running it returns the stored `elapsed`. When running it takes
`startTime` if present, else the current instant, and returns
`Math.floor(elapsed + (now - start) / 1000)`. Since the stored `elapsed` is an
integer, `Math.floor(elapsed + d / 1000)` equals `elapsed + ⌊d / 1000⌋`, i.e.
`elapsed + Int.fdiv (now - start) 1000` (floor division, rounding toward
negative infinity exactly as `Math.floor`). -/
def calculateElapsed (stopwatch : Stopwatch) (now : Int) : Int :=
  if !stopwatch.isRunning then
    stopwatch.elapsed
  else
    let startTime := stopwatch.startTime.getD now
    stopwatch.elapsed + Int.fdiv (now - startTime) 1000

/-- `StopwatchService.toDto` (service lines 154-161): the view carries the live
effective elapsed, computed at the instant the conversion runs. -/
def toDto (stopwatch : Stopwatch) (now : Int) : StopwatchDto :=
  { id := stopwatch.id
    name := stopwatch.name
    elapsed := calculateElapsed stopwatch now
    isRunning := stopwatch.isRunning }

/-- Modelled from the spec: `stopwatchRepository.findOne({ where: { id } })` of
the external store collaborator returns the record with the given id that is
not soft-deleted (spec section 6: `findById` operates on live records only). -/
def findOne (store : List Stopwatch) (id : Int) : Option Stopwatch :=
  store.find? (fun r => r.id == id && r.deletedAt.isNone)

/-- Modelled from the spec: `stopwatchRepository.save(record)` for a record
that already has an id upserts it, replacing the stored row with that id. -/
def saveRecord (store : List Stopwatch) (s : Stopwatch) : List Stopwatch :=
  store.map (fun r => if r.id == s.id then s else r)

/-- Modelled from the spec: the store assigns a fresh identifier on insert
(spec section 3: `id` unique, store-assigned). -/
def nextId (store : List Stopwatch) : Int :=
  (store.map (fun r => r.id)).foldr max 0 + 1

/-- Modelled from the spec: `stopwatchRepository.softDelete({ id })` marks the
record with the given id as logically deleted (sets its deletion timestamp);
the row is retained. -/
def softDelete (store : List Stopwatch) (id : Int) (delNow : Int) :
    List Stopwatch :=
  store.map (fun r => if r.id == id then { r with deletedAt := some delNow } else r)

/-- `StopwatchService.create` (service lines 64-66): saves the create DTO,
which carries only `name`; the entity columns default to `isRunning = false`,
`elapsed = 0`, `startTime = null`, and the store assigns the id. Returns the
saved entity as a read view. -/
def create (store : List Stopwatch) (name : String) (now : Int) :
    List Stopwatch × StopwatchDto :=
  let s : Stopwatch :=
    { id := nextId store
      name := name
      isRunning := false
      elapsed := 0
      startTime := none
      deletedAt := none }
  (store ++ [s], toDto s now)

/-- `StopwatchService.start` (service lines 80-89). `now` is the instant read
at line 87 (`new Date()`), stored into `startTime`; `nowDto` is the instant
read later inside `toDto` when the response view is built (line 88 runs
`toDto` after the save completes, so the two reads can differ). -/
def start (store : List Stopwatch) (id : Int) (now nowDto : Int) :
    List Stopwatch × Except ServiceError StopwatchDto :=
  match findOne store id with
  | none => (store, .error .notFoundException)
  | some stopwatch =>
    if stopwatch.isRunning then
      (store, .error .badRequestException)
    else
      let s := { stopwatch with isRunning := true, startTime := some now }
      (saveRecord store s, .ok (toDto s nowDto))

/-- `StopwatchService.stop` (service lines 99-110). `now` is the instant read
inside `calculateElapsed` at line 106; `nowDto` the instant read when the
response view is built at line 109. -/
def stop (store : List Stopwatch) (id : Int) (now nowDto : Int) :
    List Stopwatch × Except ServiceError StopwatchDto :=
  match findOne store id with
  | none => (store, .error .notFoundException)
  | some stopwatch =>
    if !stopwatch.isRunning then
      (store, .error .badRequestException)
    else
      let s := { stopwatch with
        elapsed := calculateElapsed stopwatch now
        isRunning := false
        startTime := none }
      (saveRecord store s, .ok (toDto s nowDto))

/-- JavaScript truthiness of `updateDto.elapsed` as used in the guard at
service line 123: `undefined` (absent) and `0` are falsy, any other integer is
truthy. -/
def elapsedTruthy : Option Int → Bool
  | none => false
  | some v => v != 0

/-- The merge `{ ...stopwatch, ...updateDto }` at service line 127: fields
present in the patch overwrite, absent fields are left untouched. -/
def applyPatch (stopwatch : Stopwatch) (updateDto : UpdateStopwatchDto) :
    Stopwatch :=
  { stopwatch with
    name := updateDto.name.getD stopwatch.name
    elapsed := updateDto.elapsed.getD stopwatch.elapsed }

/-- `StopwatchService.update` (service lines 120-129). The guard is
`updateDto.elapsed && stopwatch.isRunning`, i.e. truthiness of the patched
elapsed, not mere presence. `nowDto` is the instant read when the response
view is built. -/
def update (store : List Stopwatch) (id : Int) (updateDto : UpdateStopwatchDto)
    (nowDto : Int) : List Stopwatch × Except ServiceError StopwatchDto :=
  match findOne store id with
  | none => (store, .error .notFoundException)
  | some stopwatch =>
    if elapsedTruthy updateDto.elapsed && stopwatch.isRunning then
      (store, .error .badRequestException)
    else
      let patched := applyPatch stopwatch updateDto
      (saveRecord store patched, .ok (toDto patched nowDto))

/-- `StopwatchService.delete` (service lines 137-146): soft-deletes and
returns the acknowledgement string. `delNow` is the deletion timestamp the
store records. -/
def delete (store : List Stopwatch) (id : Int) (delNow : Int) :
    List Stopwatch × Except ServiceError String :=
  match findOne store id with
  | none => (store, .error .notFoundException)
  | some stopwatch =>
    if stopwatch.isRunning then
      (store, .error .badRequestException)
    else
      (softDelete store id delNow, .ok "ok")

/-- Ordering used by `findAll`: ascending id. -/
def idLe (a b : Stopwatch) : Prop := a.id ≤ b.id

instance : DecidableRel idLe := fun a b => Int.decLe a.id b.id

instance : IsTotal Stopwatch idLe := ⟨fun a b => Int.le_total a.id b.id⟩

instance : IsTrans Stopwatch idLe := ⟨fun _ _ _ => Int.le_trans⟩

/-- `StopwatchService.findAll` (service lines 52-56):
`repository.find({ order: { id: ASC } })` returns the live (not soft-deleted)
records ordered by ascending id (modelled from the spec's store contract,
`findAllOrdered`), and each is converted by `toDto`. `now` is the instant the
views are computed at. -/
def findAll (store : List Stopwatch) (now : Int) : List StopwatchDto :=
  (List.insertionSort idLe (store.filter (fun r => r.deletedAt.isNone))).map
    (fun r => toDto r now)

/-- Invariant of the spec's data model: `isRunning == true` iff `startTime`
is non-null. -/
def runningInvariant (r : Stopwatch) : Prop :=
  r.isRunning = true ↔ r.startTime ≠ none

/-- The invariant holds for every record of the store. -/
def storeInvariant (store : List Stopwatch) : Prop :=
  ∀ r ∈ store, runningInvariant r

instance : DecidablePred runningInvariant := fun r =>
  decidable_of_iff (r.isRunning = true ↔ r.startTime ≠ none) Iff.rfl

instance (store : List Stopwatch) : Decidable (storeInvariant store) :=
  List.decidableBAll runningInvariant store

theorem findOne_eq_none_iff (store : List Stopwatch) (id : Int) :
    findOne store id = none ↔ ∀ r ∈ store, ¬(r.id = id ∧ r.deletedAt = none) := by
  simp [findOne, List.find?_eq_none, Option.isNone_iff_eq_none]

theorem findOne_some {store : List Stopwatch} {id : Int} {s : Stopwatch}
    (h : findOne store id = some s) :
    s ∈ store ∧ s.id = id ∧ s.deletedAt = none := by
  refine ⟨List.mem_of_find?_eq_some h, ?_⟩
  have hp := List.find?_some h
  simp only [Bool.and_eq_true, beq_iff_eq, Option.isNone_iff_eq_none] at hp
  exact hp

theorem findOne_saveRecord {store : List Stopwatch} {id : Int} {s : Stopwatch}
    (s' : Stopwatch) (h : findOne store id = some s) (hid : s'.id = id)
    (hlive : s'.deletedAt = none) :
    findOne (saveRecord store s') id = some s' := by
  induction store with
  | nil => simp [findOne] at h
  | cons r rest ih =>
    by_cases hr : r.id = id
    · have h1 : saveRecord (r :: rest) s' = s' :: saveRecord rest s' := by
        simp [saveRecord, hr, hid]
      rw [h1]
      unfold findOne
      exact List.find?_cons_of_pos _ (by simp [hid, hlive])
    · have hpr : ¬((r.id == id && r.deletedAt.isNone) = true) := by simp [hr]
      have h2 : findOne (r :: rest) id = findOne rest id :=
        List.find?_cons_of_neg _ hpr
      rw [h2] at h
      have h3 : saveRecord (r :: rest) s' = r :: saveRecord rest s' := by
        simp [saveRecord, hid, hr]
      rw [h3]
      have h4 : findOne (r :: saveRecord rest s') id =
          findOne (saveRecord rest s') id :=
        List.find?_cons_of_neg _ hpr
      rw [h4]
      exact ih h

theorem mem_saveRecord {store : List Stopwatch} {s r' : Stopwatch}
    (h : r' ∈ saveRecord store s) : r' = s ∨ r' ∈ store := by
  simp only [saveRecord, List.mem_map] at h
  obtain ⟨a, ha, heq⟩ := h
  by_cases hc : a.id = s.id
  · rw [if_pos (by simp [hc])] at heq
    exact Or.inl heq.symm
  · rw [if_neg (by simp [hc])] at heq
    exact Or.inr (heq ▸ ha)

theorem mem_softDelete {store : List Stopwatch} {id : Int} {t : Int}
    {r' : Stopwatch} (h : r' ∈ softDelete store id t) :
    ∃ a ∈ store, r' = { a with deletedAt := some t } ∨ r' = a := by
  simp only [softDelete, List.mem_map] at h
  obtain ⟨a, ha, heq⟩ := h
  by_cases hc : a.id = id
  · rw [if_pos (by simp [hc])] at heq
    exact ⟨a, ha, Or.inl heq.symm⟩
  · rw [if_neg (by simp [hc])] at heq
    exact ⟨a, ha, Or.inr heq.symm⟩

theorem softDelete_kills (store : List Stopwatch) (id t : Int) :
    ∀ r ∈ softDelete store id t, r.id = id → r.deletedAt = some t := by
  intro r hr hid
  simp only [softDelete, List.mem_map] at hr
  obtain ⟨a, _, heq⟩ := hr
  by_cases hc : a.id = id
  · rw [if_pos (by simp [hc])] at heq
    rw [← heq]
  · rw [if_neg (by simp [hc])] at heq
    rw [← heq] at hid
    exact absurd hid hc

/-- Claim C1 counterexample: `calculateElapsed` does not clamp a negative
delta. For a running stopwatch with stored elapsed 5 and `startTime` 2000 ms,
evaluated at the earlier instant 1000 ms, it returns 4, strictly below the
stored elapsed — the claimed clamping to zero does not happen. -/
theorem claim_C1_counterexample :
    calculateElapsed ⟨1, "a", true, 5, some 2000, none⟩ 1000 = 4 ∧
      (4 : Int) < 5 := by
  exact ⟨rfl, by decide⟩

/-- Claim C1 (amended): the shared elapsed computation returns the stored
elapsed when not running, and elapsed plus the floor of the second difference
between the start time and the current instant when running; a negative delta
is NOT clamped (it is floored like any other value), so the result is only
guaranteed to be at least the stored elapsed when the current instant is not
earlier than the start time. -/
theorem claim_C1_amended (s : Stopwatch) (now st : Int) :
    (s.isRunning = false → calculateElapsed s now = s.elapsed) ∧
    (s.isRunning = true → s.startTime = some st →
      calculateElapsed s now = s.elapsed + Int.fdiv (now - st) 1000) ∧
    (s.isRunning = true → s.startTime = some st → st ≤ now →
      s.elapsed ≤ calculateElapsed s now) := by
  refine ⟨fun h => by simp [calculateElapsed, h],
    fun h hst => by simp [calculateElapsed, h, hst],
    fun h hst hle => ?_⟩
  simp only [calculateElapsed, h, Bool.not_true, Bool.false_eq_true, if_false,
    hst, Option.getD_some]
  have hnn : 0 ≤ Int.fdiv (now - st) 1000 :=
    Int.fdiv_nonneg (by omega) (by norm_num)
  omega

/-- Claim C1 witness: the amended statement evaluated on a running stopwatch
started at 0 ms and read at 1500 ms, and on a stopped one. -/
theorem claim_C1_witness :
    calculateElapsed ⟨1, "a", true, 5, some 0, none⟩ 1500 =
      5 + Int.fdiv (1500 - 0) 1000 ∧
    (5 : Int) ≤ calculateElapsed ⟨1, "a", true, 5, some 0, none⟩ 1500 ∧
    calculateElapsed ⟨1, "a", false, 5, some 0, none⟩ 7 = 5 :=
  ⟨(claim_C1_amended ⟨1, "a", true, 5, some 0, none⟩ 1500 0).2.1 rfl rfl,
   (claim_C1_amended ⟨1, "a", true, 5, some 0, none⟩ 1500 0).2.2 rfl rfl
     (by decide),
   (claim_C1_amended ⟨1, "a", false, 5, some 0, none⟩ 7 0).1 rfl⟩

/-- Claim C10: the elapsed computation is total when the invariant is broken:
for a record with `isRunning = true` and `startTime = null`, the current
instant is substituted for the missing start time, so the result is the stored
elapsed (the floor of an integer is itself) and no failure occurs. -/
theorem claim_C10_total_when_startTime_null (s : Stopwatch) (now : Int)
    (hrun : s.isRunning = true) (hst : s.startTime = none) :
    calculateElapsed s now = s.elapsed := by
  simp [calculateElapsed, hrun, hst]

/-- Claim C10 witness: a concrete invariant-violating record. -/
theorem claim_C10_witness :
    calculateElapsed ⟨2, "b", true, 9, none, none⟩ 123456 = 9 :=
  claim_C10_total_when_startTime_null ⟨2, "b", true, 9, none, none⟩ 123456
    rfl rfl

/-- Claim C9: `create(name)` appends a fresh record with `isRunning = false`,
`elapsed = 0`, `startTime = null`, a store-assigned id, and returns the read
view with exactly those values, for any pre-existing store. -/
theorem claim_C9_create_spec (store : List Stopwatch) (name : String)
    (now : Int) (hname : name ≠ "") :
    ∃ r : Stopwatch,
      (create store name now).1 = store ++ [r] ∧
      r.id = nextId store ∧ r.name = name ∧ r.isRunning = false ∧
      r.elapsed = 0 ∧ r.startTime = none ∧ r.deletedAt = none ∧
      (create store name now).2 =
        { id := nextId store, name := name, elapsed := 0,
          isRunning := false } := by
  exact ⟨_, rfl, rfl, rfl, rfl, rfl, rfl, rfl, rfl⟩

/-- Claim C9 witness: creating "Timer" in the empty store yields the view with
id 1, elapsed 0, not running. -/
theorem claim_C9_witness :
    (create [] "Timer" 0).2 =
      { id := 1, name := "Timer", elapsed := 0, isRunning := false } := by
  obtain ⟨r, -, -, -, -, -, -, -, hdto⟩ :=
    claim_C9_create_spec [] "Timer" 0 (by decide)
  exact hdto.trans (by decide)

/-- Claim C6: if the `isRunning == true ⇔ startTime non-null` invariant holds
for every record of the store, it still holds for every record after each of
create, start, stop, update and delete. -/
theorem claim_C6_invariant_preserved (store : List Stopwatch) (id : Int)
    (name : String) (p : UpdateStopwatchDto) (n nd t : Int)
    (h : storeInvariant store) :
    storeInvariant (create store name n).1 ∧
    storeInvariant (start store id n nd).1 ∧
    storeInvariant (stop store id n nd).1 ∧
    storeInvariant (update store id p nd).1 ∧
    storeInvariant (delete store id t).1 := by
  refine ⟨?_, ?_, ?_, ?_, ?_⟩
  · intro r hr
    rcases List.mem_append.mp hr with hmem | hmem
    · exact h r hmem
    · rcases List.mem_singleton.mp hmem with rfl
      simp [runningInvariant]
  · cases hf : findOne store id with
    | none => simpa [start, hf] using h
    | some s =>
      cases hrun : s.isRunning with
      | true => simpa [start, hf, hrun] using h
      | false =>
        simp only [start, hf, hrun, Bool.false_eq_true, if_false]
        intro r hr
        rcases mem_saveRecord hr with rfl | hmem
        · simp [runningInvariant]
        · exact h r hmem
  · cases hf : findOne store id with
    | none => simpa [stop, hf] using h
    | some s =>
      cases hrun : s.isRunning with
      | false => simpa [stop, hf, hrun] using h
      | true =>
        simp only [stop, hf, hrun, Bool.not_true, Bool.false_eq_true, if_false]
        intro r hr
        rcases mem_saveRecord hr with rfl | hmem
        · simp [runningInvariant]
        · exact h r hmem
  · cases hf : findOne store id with
    | none => simpa [update, hf] using h
    | some s =>
      cases hguard : elapsedTruthy p.elapsed && s.isRunning with
      | true => simpa [update, hf, hguard] using h
      | false =>
        simp only [update, hf, hguard, Bool.false_eq_true, if_false]
        intro r hr
        rcases mem_saveRecord hr with rfl | hmem
        · have hs := h s (findOne_some hf).1
          simpa [runningInvariant, applyPatch] using hs
        · exact h r hmem
  · cases hf : findOne store id with
    | none => simpa [delete, hf] using h
    | some s =>
      cases hrun : s.isRunning with
      | true => simpa [delete, hf, hrun] using h
      | false =>
        simp only [delete, hf, hrun, Bool.false_eq_true, if_false]
        intro r hr
        obtain ⟨a, ha, hcase⟩ := mem_softDelete hr
        have hinv := h a ha
        rcases hcase with rfl | rfl
        · simpa [runningInvariant] using hinv
        · exact hinv

/-- Claim C6 witness: the invariant survives a concrete start on a concrete
invariant-satisfying store. -/
theorem claim_C6_witness :
    storeInvariant (start [⟨1, "a", false, 0, none, none⟩] 1 50 60).1 :=
  (claim_C6_invariant_preserved [⟨1, "a", false, 0, none, none⟩] 1 "x"
    ⟨none, none⟩ 50 60 0 (by decide)).2.1

/-- Claim C7: `findAll` returns exactly the non-deleted stopwatches (as a
permutation of, and with the same membership as, their `toDto` views), ordered
by ascending id, each carrying the live effective elapsed; the empty store
yields the empty sequence. It is a total function, so it never fails. -/
theorem claim_C7_findAll_spec (store : List Stopwatch) (now : Int) :
    List.Perm (findAll store now)
      ((store.filter (fun r => r.deletedAt.isNone)).map (fun r => toDto r now)) ∧
    List.Pairwise (fun a b : StopwatchDto => a.id ≤ b.id) (findAll store now) ∧
    (∀ d : StopwatchDto, d ∈ findAll store now ↔
      ∃ r, r ∈ store ∧ r.deletedAt = none ∧ d = toDto r now) ∧
    findAll [] now = [] := by
  refine ⟨?_, ?_, ?_, rfl⟩
  · exact (List.perm_insertionSort idLe
      (store.filter (fun r => r.deletedAt.isNone))).map (fun r => toDto r now)
  · have hs := List.sorted_insertionSort idLe
      (store.filter (fun r => r.deletedAt.isNone))
    exact List.Pairwise.map (fun r => toDto r now) (fun a b hab => hab) hs
  · intro d
    simp only [findAll, List.mem_map, List.mem_insertionSort, List.mem_filter,
      Option.isNone_iff_eq_none]
    constructor
    · rintro ⟨r, ⟨hr, hdel⟩, rfl⟩
      exact ⟨r, hr, hdel, rfl⟩
    · rintro ⟨r, hr, hdel, rfl⟩
      exact ⟨r, ⟨hr, hdel⟩, rfl⟩

/-- Claim C5 counterexample: the view returned by a successful `start` is
computed at a second, later clock read (inside `toDto`, after the save), so
its elapsed can exceed the stored elapsed. Starting a stopped stopwatch with
stored elapsed 7 at instant 0, with the view built at instant 1000 ms, returns
elapsed 8, not 7. -/
theorem claim_C5_counterexample :
    (start [⟨1, "a", false, 7, none, none⟩] 1 0 1000).2 =
      .ok { id := 1, name := "a", elapsed := 8, isRunning := true } ∧
    (8 : Int) ≠ 7 := by
  exact ⟨rfl, by decide⟩

/-- Claim C5 (amended): `start(id)` fails with NotFound iff no live record
with that id exists, fails with InvalidState iff the record is already
running, leaves the store unchanged on any failure, and on success sets
`isRunning = true` and `startTime` to the first clock read and persists; the
returned view's elapsed equals the stored elapsed whenever the second clock
read (taken when the view is built, after the save) is at or after the first
and less than one second later — a later second read inflates the view. -/
theorem claim_C5_amended (store : List Stopwatch) (id now nowDto : Int) :
    ((start store id now nowDto).2 = .error .notFoundException ↔
      ∀ r ∈ store, ¬(r.id = id ∧ r.deletedAt = none)) ∧
    ((start store id now nowDto).2 = .error .badRequestException ↔
      ∃ s, findOne store id = some s ∧ s.isRunning = true) ∧
    (∀ e, (start store id now nowDto).2 = .error e →
      (start store id now nowDto).1 = store) ∧
    (∀ s, findOne store id = some s → s.isRunning = false →
      findOne (start store id now nowDto).1 id =
        some { s with isRunning := true, startTime := some now } ∧
      (start store id now nowDto).2 =
        .ok (toDto { s with isRunning := true, startTime := some now } nowDto) ∧
      (now ≤ nowDto → nowDto < now + 1000 →
        (start store id now nowDto).2 =
          .ok { id := s.id, name := s.name, elapsed := s.elapsed,
                isRunning := true })) := by
  refine ⟨?_, ?_, ?_, ?_⟩
  · rw [← findOne_eq_none_iff]
    cases hf : findOne store id with
    | none => simp [start, hf]
    | some s =>
      cases hrun : s.isRunning with
      | true => simp [start, hf, hrun]
      | false => simp [start, hf, hrun]
  · cases hf : findOne store id with
    | none => simp [start, hf]
    | some s =>
      cases hrun : s.isRunning with
      | true => simp [start, hf, hrun]
      | false => simp [start, hf, hrun]
  · intro e he
    cases hf : findOne store id with
    | none => simp [start, hf]
    | some s =>
      cases hrun : s.isRunning with
      | true => simp [start, hf, hrun]
      | false => simp [start, hf, hrun] at he
  · intro s hf hrun
    have h1 : (start store id now nowDto).1 =
        saveRecord store { s with isRunning := true, startTime := some now } := by
      simp [start, hf, hrun]
    refine ⟨?_, ?_, ?_⟩
    · rw [h1]
      exact findOne_saveRecord _ hf (findOne_some hf).2.1 (findOne_some hf).2.2
    · simp [start, hf, hrun]
    · intro hle hlt
      have hz : Int.fdiv (nowDto - now) 1000 = 0 := by
        rw [Int.fdiv_eq_ediv _ (by norm_num)]
        exact Int.ediv_eq_zero_of_lt (by omega) (by omega)
      simp [start, hf, hrun, toDto, calculateElapsed, hz]

/-- Claim C5 witness: a concrete successful start whose two clock reads are
400 ms apart returns the stored elapsed unchanged, and persists the running
record. -/
theorem claim_C5_witness :
    findOne (start [⟨1, "a", false, 7, none, none⟩] 1 500 900).1 1 =
      some ⟨1, "a", true, 7, some 500, none⟩ ∧
    (start [⟨1, "a", false, 7, none, none⟩] 1 500 900).2 =
      .ok { id := 1, name := "a", elapsed := 7, isRunning := true } := by
  obtain ⟨h1, h2, h3⟩ :=
    (claim_C5_amended [⟨1, "a", false, 7, none, none⟩] 1 500 900).2.2.2
      ⟨1, "a", false, 7, none, none⟩ rfl rfl
  exact ⟨h1, h3 (by decide) (by decide)⟩

/-- Claim C4: `stop(id)` fails with NotFound iff no live record exists, fails
with InvalidState iff the record exists and is not running, leaves the store
unchanged on any failure, and on success persists
`elapsed + floor((now - startTime) in seconds)` as the new elapsed with
`isRunning = false` and `startTime = null`; no other operation advances the
stored elapsed by wall-clock time (after start, update, delete or create the
stored elapsed values do not depend on the instants the operation read). -/
theorem claim_C4_stop_spec (store : List Stopwatch) (id : Int)
    (now nowDto n2 nd2 t1 t2 m1 m2 nd3 : Int) (name : String)
    (p : UpdateStopwatchDto) :
    ((stop store id now nowDto).2 = .error .notFoundException ↔
      ∀ r ∈ store, ¬(r.id = id ∧ r.deletedAt = none)) ∧
    ((stop store id now nowDto).2 = .error .badRequestException ↔
      ∃ s, findOne store id = some s ∧ s.isRunning = false) ∧
    (∀ e, (stop store id now nowDto).2 = .error e →
      (stop store id now nowDto).1 = store) ∧
    (∀ s st, findOne store id = some s → s.isRunning = true →
      s.startTime = some st →
      findOne (stop store id now nowDto).1 id =
        some { s with
          elapsed := s.elapsed + Int.fdiv (now - st) 1000
          isRunning := false
          startTime := none }) ∧
    ((start store id now nowDto).1.map (fun r => r.elapsed) =
      (start store id n2 nd2).1.map (fun r => r.elapsed)) ∧
    ((update store id p nowDto).1 = (update store id p nd3).1) ∧
    ((delete store id t1).1.map (fun r => r.elapsed) =
      (delete store id t2).1.map (fun r => r.elapsed)) ∧
    ((create store name m1).1.map (fun r => r.elapsed) =
      (create store name m2).1.map (fun r => r.elapsed)) := by
  refine ⟨?_, ?_, ?_, ?_, ?_, ?_, ?_, rfl⟩
  · rw [← findOne_eq_none_iff]
    cases hf : findOne store id with
    | none => simp [stop, hf]
    | some s =>
      cases hrun : s.isRunning with
      | true => simp [stop, hf, hrun]
      | false => simp [stop, hf, hrun]
  · cases hf : findOne store id with
    | none => simp [stop, hf]
    | some s =>
      cases hrun : s.isRunning with
      | true => simp [stop, hf, hrun]
      | false => simp [stop, hf, hrun]
  · intro e he
    cases hf : findOne store id with
    | none => simp [stop, hf]
    | some s =>
      cases hrun : s.isRunning with
      | true => simp [stop, hf, hrun] at he
      | false => simp [stop, hf, hrun]
  · intro s st hf hrun hst
    have hce : calculateElapsed s now = s.elapsed + Int.fdiv (now - st) 1000 := by
      simp [calculateElapsed, hrun, hst]
    have h1 : (stop store id now nowDto).1 =
        saveRecord store { s with
          elapsed := calculateElapsed s now
          isRunning := false
          startTime := none } := by
      simp [stop, hf, hrun]
    rw [h1, hce]
    exact findOne_saveRecord _ hf (findOne_some hf).2.1 (findOne_some hf).2.2
  · cases hf : findOne store id with
    | none => simp [start, hf]
    | some s =>
      cases hrun : s.isRunning with
      | true => simp [start, hf, hrun]
      | false =>
        simp only [start, hf, hrun, Bool.false_eq_true, if_false]
        simp only [saveRecord, List.map_map]
        apply List.map_congr_left
        intro a _
        by_cases hc : a.id = s.id
        · simp [Function.comp, hc]
        · simp [Function.comp, hc]
  · cases hf : findOne store id with
    | none => simp [update, hf]
    | some s =>
      cases hguard : elapsedTruthy p.elapsed && s.isRunning with
      | true => simp [update, hf, hguard]
      | false => simp [update, hf, hguard]
  · cases hf : findOne store id with
    | none => simp [delete, hf]
    | some s =>
      cases hrun : s.isRunning with
      | true => simp [delete, hf, hrun]
      | false =>
        simp only [delete, hf, hrun, Bool.false_eq_true, if_false]
        simp only [softDelete, List.map_map]
        apply List.map_congr_left
        intro a _
        by_cases hc : a.id = id
        · simp [Function.comp, hc]
        · simp [Function.comp, hc]

/-- Claim C4 witness: a concrete stop of a running stopwatch started at 0 ms
and stopped at 2500 ms advances its elapsed from 5 to 7, and a failing stop of
a stopped stopwatch leaves the store unchanged. -/
theorem claim_C4_witness :
    findOne (stop [⟨1, "a", true, 5, some 0, none⟩] 1 2500 2500).1 1 =
      some ⟨1, "a", false, 5 + Int.fdiv (2500 - 0) 1000, none, none⟩ ∧
    (stop [⟨1, "a", false, 5, none, none⟩] 1 2500 2500).1 =
      [⟨1, "a", false, 5, none, none⟩] := by
  constructor
  · exact (claim_C4_stop_spec [⟨1, "a", true, 5, some 0, none⟩] 1 2500 2500
      0 0 0 0 0 0 0 "x" ⟨none, none⟩).2.2.2.1 ⟨1, "a", true, 5, some 0, none⟩
      0 rfl rfl rfl
  · exact (claim_C4_stop_spec [⟨1, "a", false, 5, none, none⟩] 1 2500 2500
      0 0 0 0 0 0 0 "x" ⟨none, none⟩).2.2.1 .badRequestException rfl

theorem elapsedTruthy_iff (o : Option Int) :
    elapsedTruthy o = true ↔ ∃ v, o = some v ∧ v ≠ 0 := by
  cases o <;> simp [elapsedTruthy]

/-- Claim C8: `delete(id)` fails with NotFound iff no live record exists,
fails with InvalidState iff the record exists and is running, leaves the store
unchanged on any failure (so the record stays live), and otherwise
soft-deletes the record, returns the acknowledgement string, and the record no
longer appears in any `findAll` result. -/
theorem claim_C8_delete_spec (store : List Stopwatch) (id : Int)
    (t now : Int) :
    ((delete store id t).2 = .error .notFoundException ↔
      ∀ r ∈ store, ¬(r.id = id ∧ r.deletedAt = none)) ∧
    ((delete store id t).2 = .error .badRequestException ↔
      ∃ s, findOne store id = some s ∧ s.isRunning = true) ∧
    (∀ e, (delete store id t).2 = .error e → (delete store id t).1 = store) ∧
    (∀ s, findOne store id = some s → s.isRunning = false →
      (delete store id t).2 = .ok "ok" ∧
      ∀ d ∈ findAll (delete store id t).1 now, d.id ≠ id) := by
  refine ⟨?_, ?_, ?_, ?_⟩
  · rw [← findOne_eq_none_iff]
    cases hf : findOne store id with
    | none => simp [delete, hf]
    | some s =>
      cases hrun : s.isRunning with
      | true => simp [delete, hf, hrun]
      | false => simp [delete, hf, hrun]
  · cases hf : findOne store id with
    | none => simp [delete, hf]
    | some s =>
      cases hrun : s.isRunning with
      | true => simp [delete, hf, hrun]
      | false => simp [delete, hf, hrun]
  · intro e he
    cases hf : findOne store id with
    | none => simp [delete, hf]
    | some s =>
      cases hrun : s.isRunning with
      | true => simp [delete, hf, hrun]
      | false => simp [delete, hf, hrun] at he
  · intro s hf hrun
    have h1 : (delete store id t).1 = softDelete store id t := by
      simp [delete, hf, hrun]
    refine ⟨by simp [delete, hf, hrun], ?_⟩
    intro d hd
    rw [h1] at hd
    simp only [findAll, List.mem_map, List.mem_insertionSort, List.mem_filter,
      Option.isNone_iff_eq_none] at hd
    obtain ⟨r, ⟨hr, hdel⟩, rfl⟩ := hd
    intro heq
    have hkill := softDelete_kills store id t r hr heq
    rw [hkill] at hdel
    exact Option.noConfusion hdel

/-- Claim C8 witness: deleting a stopped stopwatch succeeds and it disappears
from the listing; deleting a running one leaves the store unchanged. -/
theorem claim_C8_witness :
    (delete [⟨1, "a", false, 5, none, none⟩] 1 777).2 = .ok "ok" ∧
    (∀ d ∈ findAll (delete [⟨1, "a", false, 5, none, none⟩] 1 777).1 900,
      d.id ≠ 1) ∧
    (delete [⟨2, "b", true, 5, some 0, none⟩] 2 777).1 =
      [⟨2, "b", true, 5, some 0, none⟩] := by
  obtain ⟨hok, hgone⟩ :=
    (claim_C8_delete_spec [⟨1, "a", false, 5, none, none⟩] 1 777 900).2.2.2
      ⟨1, "a", false, 5, none, none⟩ rfl rfl
  exact ⟨hok, hgone,
    (claim_C8_delete_spec [⟨2, "b", true, 5, some 0, none⟩] 2 777 900).2.2.1
      .badRequestException rfl⟩

/-- Claim C2 counterexample: the guard at service line 123 tests JavaScript
truthiness, so a patch carrying `elapsed = 0` on a running stopwatch is NOT
rejected: the update succeeds and overwrites the stored elapsed with 0 while
the stopwatch is still running, contradicting the claimed
fails-iff-elapsed-present condition. -/
theorem claim_C2_counterexample :
    (update [⟨1, "a", true, 5, some 0, none⟩] 1 ⟨none, some 0⟩ 100).2 ≠
      .error .badRequestException ∧
    findOne (update [⟨1, "a", true, 5, some 0, none⟩] 1 ⟨none, some 0⟩ 100).1 1 =
      some ⟨1, "a", true, 0, some 0, none⟩ := by
  constructor
  · intro h
    exact Except.noConfusion (h.symm.trans rfl)
  · rfl

/-- Claim C2 (amended): for a live stopwatch, `update(id, patch)` fails with
InvalidState iff the patch carries a NONZERO elapsed value and the stopwatch
is running (a present `elapsed = 0` is falsy in the guard and is accepted,
overwriting the stored elapsed even while running); on failure the store is
unchanged; otherwise the provided fields are merged and persisted. -/
theorem claim_C2_update_spec (store : List Stopwatch) (id : Int)
    (p : UpdateStopwatchDto) (nd : Int) (s : Stopwatch)
    (h : findOne store id = some s) :
    ((update store id p nd).2 = .error .badRequestException ↔
      (s.isRunning = true ∧ ∃ v, p.elapsed = some v ∧ v ≠ 0)) ∧
    ((update store id p nd).2 = .error .badRequestException →
      (update store id p nd).1 = store) ∧
    (elapsedTruthy p.elapsed = false ∨ s.isRunning = false →
      findOne (update store id p nd).1 id = some (applyPatch s p) ∧
      (update store id p nd).2 = .ok (toDto (applyPatch s p) nd)) := by
  refine ⟨?_, ?_, ?_⟩
  · constructor
    · intro he
      by_cases hguard : (elapsedTruthy p.elapsed && s.isRunning) = true
      · rw [Bool.and_eq_true, elapsedTruthy_iff] at hguard
        exact ⟨hguard.2, hguard.1⟩
      · rw [Bool.not_eq_true] at hguard
        simp [update, h, hguard] at he
    · rintro ⟨hrun, v, hv, hvne⟩
      have hguard : (elapsedTruthy p.elapsed && s.isRunning) = true := by
        rw [Bool.and_eq_true, elapsedTruthy_iff]
        exact ⟨⟨v, hv, hvne⟩, hrun⟩
      simp [update, h, hguard]
  · intro he
    by_cases hguard : (elapsedTruthy p.elapsed && s.isRunning) = true
    · simp [update, h, hguard]
    · rw [Bool.not_eq_true] at hguard
      simp [update, h, hguard] at he
  · intro hok
    have hguard : (elapsedTruthy p.elapsed && s.isRunning) = false := by
      rcases hok with h1 | h1 <;> simp [h1]
    have h1 : (update store id p nd).1 = saveRecord store (applyPatch s p) := by
      simp [update, h, hguard]
    refine ⟨?_, by simp [update, h, hguard]⟩
    rw [h1]
    exact findOne_saveRecord _ h (findOne_some h).2.1 (findOne_some h).2.2

/-- Claim C2 witness: a full patch on a stopped stopwatch is merged and
persisted; a nonzero elapsed patch on a running stopwatch is rejected with the
store unchanged. -/
theorem claim_C2_witness :
    findOne (update [⟨1, "a", false, 5, none, none⟩] 1 ⟨some "b", some 9⟩ 0).1 1 =
      some ⟨1, "b", false, 9, none, none⟩ ∧
    (update [⟨2, "c", true, 5, some 0, none⟩] 2 ⟨none, some 9⟩ 0).1 =
      [⟨2, "c", true, 5, some 0, none⟩] := by
  constructor
  · exact ((claim_C2_update_spec [⟨1, "a", false, 5, none, none⟩] 1
      ⟨some "b", some 9⟩ 0 ⟨1, "a", false, 5, none, none⟩ rfl).2.2
      (Or.inr rfl)).1
  · exact (claim_C2_update_spec [⟨2, "c", true, 5, some 0, none⟩] 2
      ⟨none, some 9⟩ 0 ⟨2, "c", true, 5, some 0, none⟩ rfl).2.1 rfl

/-- Claim C3 counterexample: elapsed can decrease across a start→stop cycle
when the stop instant precedes the start instant (no clamping): starting a
stopwatch with stored elapsed 5 at instant 2000 ms and stopping it at instant
0 stores elapsed 3 < 5. -/
theorem claim_C3_counterexample :
    findOne (stop (start [⟨1, "a", false, 5, none, none⟩] 1 2000 2000).1
        1 0 0).1 1 =
      some ⟨1, "a", false, 3, none, none⟩ ∧ (3 : Int) < 5 := by
  exact ⟨rfl, by decide⟩

/-- Claim C3 (amended): across a successful start→stop cycle the stored
elapsed never decreases, PROVIDED the instant read by the stop is at or after
the instant read by the start (a monotone clock); with a backwards clock step
the un-clamped negative delta can decrease it. -/
theorem claim_C3_amended (store : List Stopwatch) (id : Int)
    (n1 nd1 n2 nd2 : Int) (s : Stopwatch)
    (h : findOne store id = some s) (hrun : s.isRunning = false)
    (hmono : n1 ≤ n2) :
    ∃ s' : Stopwatch,
      findOne (stop (start store id n1 nd1).1 id n2 nd2).1 id = some s' ∧
      s'.isRunning = false ∧ s.elapsed ≤ s'.elapsed := by
  obtain ⟨hmem, hid, hdel⟩ := findOne_some h
  have hstart : (start store id n1 nd1).1 =
      saveRecord store { s with isRunning := true, startTime := some n1 } := by
    simp [start, h, hrun]
  have hf1 : findOne (start store id n1 nd1).1 id =
      some { s with isRunning := true, startTime := some n1 } := by
    rw [hstart]
    exact findOne_saveRecord _ h hid hdel
  have hce : calculateElapsed { s with isRunning := true, startTime := some n1 }
      n2 = s.elapsed + Int.fdiv (n2 - n1) 1000 := by
    simp [calculateElapsed]
  have hstop : (stop (start store id n1 nd1).1 id n2 nd2).1 =
      saveRecord (start store id n1 nd1).1 { s with
        elapsed := calculateElapsed
          { s with isRunning := true, startTime := some n1 } n2
        isRunning := false
        startTime := none } := by
    simp [stop, hf1]
  refine ⟨{ s with
      elapsed := s.elapsed + Int.fdiv (n2 - n1) 1000
      isRunning := false
      startTime := none }, ?_, rfl, ?_⟩
  · rw [hstop, hce]
    exact findOne_saveRecord _ hf1 hid hdel
  · have hnn : 0 ≤ Int.fdiv (n2 - n1) 1000 :=
      Int.fdiv_nonneg (by omega) (by norm_num)
    exact le_add_of_nonneg_right hnn

/-- Claim C3 witness: a concrete cycle with a monotone clock (start at 0 ms,
stop at 2500 ms) does not decrease the stored elapsed 5. -/
theorem claim_C3_witness :
    ∃ s' : Stopwatch,
      findOne (stop (start [⟨1, "a", false, 5, none, none⟩] 1 0 0).1
          1 2500 2500).1 1 = some s' ∧
      s'.isRunning = false ∧ (5 : Int) ≤ s'.elapsed :=
  claim_C3_amended [⟨1, "a", false, 5, none, none⟩] 1 0 0 2500 2500
    ⟨1, "a", false, 5, none, none⟩ rfl rfl (by decide)

end MabelAssistant
